import Mathlib

/-!
Verification of the AMZ Analytics event batching and delivery subsystem
(`src/csvAnalytics.ts`, class `Analytics`): event normalization, the queue
and flush triggers, the retry/backoff coordinator and the failed-batch
archive, embedded shallowly as pure Lean functions and a small-step state
machine over the suspension points of the asynchronous code.
-/

namespace AmzAnalytics

/-- JSON-like runtime values. `undef` models the JavaScript `undefined`
value, which can occur as a field value in an event object literal
(e.g. `value: undefined`) but is never produced by parsing JSON. -/
inductive JsonValue where
  | null
  | bool (b : Bool)
  | num (n : Int)
  | str (s : String)
  | arr (elems : List JsonValue)
  | obj (fields : List (String × JsonValue))
  | undef

/-- Drop leading JSON whitespace. Part of the model of the host
primitive `JSON.parse` used by `Analytics.trackEvent`. -/
def skipWs : List Char → List Char
  | [] => []
  | c :: cs => if c = ' ' ∨ c = '\n' ∨ c = '\t' ∨ c = '\r' then skipWs cs else c :: cs

/-- Parse the body of a JSON string after the opening quote, returning the
decoded characters and the remaining input. Handles the simple escape
sequences; the rare escapes (such as unicode escapes) are conservatively
rejected, which only makes the modelled `JSON.parse` fail more often. -/
def parseStringBody : List Char → Option (List Char × List Char)
  | [] => none
  | '"' :: cs => some ([], cs)
  | '\\' :: c :: cs =>
      let esc : Option Char :=
        if c = '"' then some '"'
        else if c = '\\' then some '\\'
        else if c = '/' then some '/'
        else if c = 'n' then some '\n'
        else if c = 't' then some '\t'
        else if c = 'r' then some '\r'
        else none
      match esc, parseStringBody cs with
      | some e, some (s, rest) => some (e :: s, rest)
      | _, _ => none
  | c :: cs =>
      match parseStringBody cs with
      | some (s, rest) => some (c :: s, rest)
      | none => none

/-- Take the leading decimal digits of the input. -/
def takeDigits : List Char → List Char × List Char
  | [] => ([], [])
  | c :: cs =>
      if c.isDigit then
        let (ds, rest) := takeDigits cs
        (c :: ds, rest)
      else ([], c :: cs)

/-- Decimal digits to a natural number. -/
def digitsToNat (ds : List Char) : Nat :=
  ds.foldl (fun n c => n * 10 + (c.toNat - '0'.toNat)) 0

/-- Parse a JSON number, modelled on the integer fragment (an optional
minus sign followed by digits); fractional numbers are conservatively
rejected by the model. -/
def parseNumber : List Char → Option (Int × List Char)
  | '-' :: cs =>
      match takeDigits cs with
      | ([], _) => none
      | (ds, rest) => some (-(digitsToNat ds : Int), rest)
  | cs =>
      match takeDigits cs with
      | ([], _) => none
      | (ds, rest) => some ((digitsToNat ds : Int), rest)

mutual

/-- Parse one JSON value (fuel-bounded recursive descent). Together with
`jsonParse` this models the host primitive `JSON.parse` that
`Analytics.trackEvent` applies to a string `attributes` argument. -/
def parseValue : Nat → List Char → Option (JsonValue × List Char)
  | 0, _ => none
  | fuel + 1, cs =>
      match skipWs cs with
      | 'n' :: 'u' :: 'l' :: 'l' :: rest => some (.null, rest)
      | 't' :: 'r' :: 'u' :: 'e' :: rest => some (.bool true, rest)
      | 'f' :: 'a' :: 'l' :: 's' :: 'e' :: rest => some (.bool false, rest)
      | '"' :: rest =>
          match parseStringBody rest with
          | some (s, rest2) => some (.str (String.mk s), rest2)
          | none => none
      | '[' :: rest =>
          (match skipWs rest with
           | ']' :: rest2 => some (.arr [], rest2)
           | _ =>
               match parseElems fuel rest with
               | some (xs, rest2) => some (.arr xs, rest2)
               | none => none)
      | '{' :: rest =>
          (match skipWs rest with
           | '}' :: rest2 => some (.obj [], rest2)
           | _ =>
               match parseFields fuel rest with
               | some (fs, rest2) => some (.obj fs, rest2)
               | none => none)
      | cs2 =>
          match parseNumber cs2 with
          | some (n, rest) => some (.num n, rest)
          | none => none

/-- Parse the comma-separated elements of a non-empty JSON array up to the
closing bracket. -/
def parseElems : Nat → List Char → Option (List JsonValue × List Char)
  | 0, _ => none
  | fuel + 1, cs =>
      match parseValue fuel cs with
      | none => none
      | some (v, rest) =>
          match skipWs rest with
          | ',' :: rest2 =>
              (match parseElems fuel rest2 with
               | some (vs, rest3) => some (v :: vs, rest3)
               | none => none)
          | ']' :: rest2 => some ([v], rest2)
          | _ => none

/-- Parse the comma-separated key/value pairs of a non-empty JSON object up
to the closing brace. -/
def parseFields : Nat → List Char → Option (List (String × JsonValue) × List Char)
  | 0, _ => none
  | fuel + 1, cs =>
      match skipWs cs with
      | '"' :: rest =>
          (match parseStringBody rest with
           | none => none
           | some (k, rest2) =>
               match skipWs rest2 with
               | ':' :: rest3 =>
                   (match parseValue fuel rest3 with
                    | none => none
                    | some (v, rest4) =>
                        match skipWs rest4 with
                        | ',' :: rest5 =>
                            (match parseFields fuel rest5 with
                             | some (fs, rest6) => some ((String.mk k, v) :: fs, rest6)
                             | none => none)
                        | '}' :: rest5 => some ([(String.mk k, v)], rest5)
                        | _ => none)
               | _ => none)
      | _ => none

end

/-- Model of the host primitive `JSON.parse` on the fragment described
above: `none` models a thrown `SyntaxError` (the `catch` branch of
`trackEvent`), `some v` a successful parse. -/
def jsonParse (s : String) : Option JsonValue :=
  match parseValue (s.length + 1) s.toList with
  | some (v, rest) => if skipWs rest = [] then some v else none
  | none => none

/-- The resolved configuration held by an `Analytics` instance
(`Required<Omit<AnalyticsConfig, 'context'>> & { context }`). `endpoint`
is kept as an `Option` because the constructor copies whatever arrives at
runtime, including a missing (`undefined`) endpoint. -/
structure AnalyticsConfig where
  endpoint : Option String
  enabled : Bool
  batchSize : Nat
  batchTimeout : Nat
  maxRetries : Nat
  context : List (String × JsonValue)

/-- A normalized event record: the ordered key/value entries of the
JavaScript object literal built by `trackEvent`, reserved fields first and
the configuration context spread last. -/
abbrev EventRecord : Type := List (String × JsonValue)

/-- The `attributes` argument of `trackEvent`: absent (`undefined`), a
serialized string, or an already structured mapping. -/
abbrev AttrArg : Type := Option (String ⊕ List (String × JsonValue))

/-- Look a key up in an ordered list of object entries with JavaScript
spread semantics: a later entry for the same key overrides an earlier one.
Models reading a property of the object literal built by `trackEvent`. -/
def lookupLast (fields : List (String × JsonValue)) (k : String) : Option JsonValue :=
  (fields.reverse.find? (fun p => p.1 == k)).map (fun p => p.2)

/-- The attribute-normalization prefix of `Analytics.trackEvent`
(csvAnalytics.ts lines 502-516): start from `{}`; if `attributes` is
truthy and a string, try `JSON.parse`, falling back to
`{raw: attributes}` on a parse error; if truthy and already a mapping,
take it as is. The empty string is falsy in JavaScript, so it skips the
whole block, as does an absent argument. -/
def parseAttributes (jp : String → Option JsonValue) (attributes : AttrArg) : JsonValue :=
  match attributes with
  | none => .obj []
  | some (.inl s) =>
      if s = "" then .obj []
      else
        match jp s with
        | some v => v
        | none => .obj [("raw", .str s)]
  | some (.inr m) => .obj m

/-- The event object literal built by `Analytics.trackEvent`
(csvAnalytics.ts lines 518-531): the eight reserved fields in program
order, then the configuration context spread last, so a context entry with
a reserved key overrides that field. `now` models `Date.now()`, `ua` the
optional `navigator.userAgent`. -/
def mkEvent (cfg : AnalyticsConfig) (jp : String → Option JsonValue) (now : Int)
    (ua : Option String) (sessionId : String) (metricName : String) (value : Option Int)
    (contentId : Option String) (attributes : AttrArg) (experimentGroup : Option String) :
    EventRecord :=
  [("timestamp", .num now),
   ("metricName", .str metricName),
   ("value", match value with | some n => .num n | none => .undef),
   ("contentId", match contentId with | some s => .str s | none => .undef),
   ("attributes", parseAttributes jp attributes),
   ("experimentGroup", match experimentGroup with | some s => .str s | none => .undef),
   ("sessionId", .str sessionId),
   ("userAgent", .str (match ua with | some s => s | none => "unknown"))]
  ++ cfg.context

/-- Read a field of a normalized event record (JavaScript object
semantics: the last entry for a key wins). -/
def getField (ev : EventRecord) (k : String) : Option JsonValue :=
  lookupLast ev k

/-- The reserved field names written explicitly by the `trackEvent` object
literal before the context spread. -/
def reservedFields : List String :=
  ["timestamp", "metricName", "value", "contentId", "attributes",
   "experimentGroup", "sessionId", "userAgent"]

/-- Where an in-flight asynchronous send is suspended: awaiting the
`fetch` result, or waiting out a backoff delay of the recorded length in
milliseconds before the next attempt. -/
inductive SendPhase where
  | attempting
  | backingOff (delay : Nat)

/-- The in-flight asynchronous `sendBatch` activation: the batch it
carries, its current `retryCount`, and the suspension point it is parked
at. -/
structure SendTask where
  batch : List EventRecord
  retryCount : Nat
  phase : SendPhase

/-- The mutable state of an `Analytics` instance that the batching and
delivery logic touches, plus the at-most-one in-flight asynchronous send
(the code suspends only inside `sendBatch`, at the `fetch` await and at
the backoff delay, so everything else is atomic). -/
structure AnalyticsState where
  eventQueue : List EventRecord
  isFlushingInProgress : Bool
  failedBatches : List (List EventRecord)
  inFlight : Option SendTask

/-- The synchronous prefix of `Analytics.flush` (csvAnalytics.ts lines
625-640): a no-op when the queue is empty or a flush is already in flight;
otherwise set the busy flag, snapshot the queue as the batch, clear the
queue, and start `sendBatch(batch)` up to its first suspension point (the
`fetch` await), all in one uninterruptible step. -/
def flush (s : AnalyticsState) : AnalyticsState :=
  if s.eventQueue.length = 0 ∨ s.isFlushingInProgress = true then s
  else
    { eventQueue := [],
      isFlushingInProgress := true,
      failedBatches := s.failedBatches,
      inFlight := some ⟨s.eventQueue, 0, .attempting⟩ }

/-- `Analytics.trackEvent` (csvAnalytics.ts lines 491-544): a no-op when
disabled; otherwise normalize the arguments into an event, push it onto
the queue, and invoke `flush` if the queue length has reached the batch
size. The whole body is synchronous, hence one atomic step. -/
def trackEvent (cfg : AnalyticsConfig) (jp : String → Option JsonValue) (now : Int)
    (ua : Option String) (sessionId : String) (s : AnalyticsState) (metricName : String)
    (value : Option Int) (contentId : Option String) (attributes : AttrArg)
    (experimentGroup : Option String) : AnalyticsState :=
  if cfg.enabled = false then s
  else
    let ev := mkEvent cfg jp now ua sessionId metricName value contentId attributes
      experimentGroup
    let s1 : AnalyticsState := { s with eventQueue := s.eventQueue ++ [ev] }
    if cfg.batchSize ≤ s1.eventQueue.length then flush s1 else s1

/-- Resumption of the in-flight `sendBatch` when its awaited `fetch`
settles (csvAnalytics.ts lines 645-682): on success the send completes and
`flush`'s `finally` clears the busy flag; on failure with
`retryCount < maxRetries` the task moves to the backoff delay of
`2 ^ retryCount * 1000` ms; otherwise the batch is pushed onto
`failedBatches`, the send completes and the busy flag clears. -/
def fetchComplete (cfg : AnalyticsConfig) (s : AnalyticsState) (ok : Bool) : AnalyticsState :=
  match s.inFlight with
  | some ⟨batch, retryCount, .attempting⟩ =>
      if ok then
        { s with inFlight := none, isFlushingInProgress := false }
      else if retryCount < cfg.maxRetries then
        { s with inFlight := some ⟨batch, retryCount, .backingOff (2 ^ retryCount * 1000)⟩ }
      else
        { s with failedBatches := s.failedBatches ++ [batch],
                 inFlight := none,
                 isFlushingInProgress := false }
  | _ => s

/-- Resumption of the in-flight `sendBatch` when its backoff delay
elapses (csvAnalytics.ts lines 670-673): re-attempt with the same batch
and `retryCount + 1`, issuing the next `fetch`. -/
def backoffElapsed (s : AnalyticsState) : AnalyticsState :=
  match s.inFlight with
  | some ⟨batch, retryCount, .backingOff _⟩ =>
      { s with inFlight := some ⟨batch, retryCount + 1, .attempting⟩ }
  | _ => s

/-- `Analytics.clear` (csvAnalytics.ts lines 706-709): empty both the
event queue and the failed-batch archive. -/
def clear (s : AnalyticsState) : AnalyticsState :=
  { s with eventQueue := [], failedBatches := [] }

/-- The observable outcome of one complete run of the recursive
`sendBatch`: the backoff delays awaited in order, the batch contents
transmitted by each attempt in order, and the batch pushed onto
`failedBatches`, if any. -/
structure SendRun where
  delays : List Nat
  attempts : List (List EventRecord)
  archived : Option (List EventRecord)

/-- Denotation of the recursive `Analytics.sendBatch` (csvAnalytics.ts
lines 645-682) against an abstract network: `fetchOk n` is the success of
the `fetch` performed by the attempt whose `retryCount` is `n`. On
failure with `retryCount < maxRetries` it awaits `2 ^ retryCount * 1000`
ms and recurses with the same batch; on failure at `retryCount =
maxRetries` it archives the batch and stops. -/
def sendBatch (maxRetries : Nat) (fetchOk : Nat → Bool) (batch : List EventRecord)
    (retryCount : Nat) : SendRun :=
  if fetchOk retryCount then
    { delays := [], attempts := [batch], archived := none }
  else if retryCount < maxRetries then
    let rest := sendBatch maxRetries fetchOk batch (retryCount + 1)
    { delays := 2 ^ retryCount * 1000 :: rest.delays,
      attempts := batch :: rest.attempts,
      archived := rest.archived }
  else
    { delays := [], attempts := [batch], archived := some batch }
termination_by maxRetries - retryCount

/-- The raw configuration object passed to the constructor; every field an
`Option` because at runtime any of them, the endpoint included, may be
absent (`undefined`) regardless of the compile-time type. -/
structure AnalyticsConfigInput where
  endpoint : Option String
  enabled : Option Bool
  batchSize : Option Nat
  batchTimeout : Option Nat
  maxRetries : Option Nat
  context : Option (List (String × JsonValue))

/-- An `Analytics` instance as produced by the constructor. -/
structure Analytics where
  config : AnalyticsConfig
  sessionId : String
  flushTimerArmed : Bool
  state : AnalyticsState

/-- The `Analytics` constructor (csvAnalytics.ts lines 459-477), wrapped
in `Except` to make a thrown error representable: it fills in defaults
with `??`, copies `endpoint` verbatim with no validation, generates the
session id (passed in here, as it comes from the clock and a random
source), and arms the timer when enabled. The body contains no `throw`,
so the result is always `Except.ok`. -/
def construct (input : AnalyticsConfigInput) (sessionId : String) : Except String Analytics :=
  let cfg : AnalyticsConfig :=
    { endpoint := input.endpoint,
      enabled := input.enabled.getD true,
      batchSize := input.batchSize.getD 25,
      batchTimeout := input.batchTimeout.getD 30000,
      maxRetries := input.maxRetries.getD 3,
      context := input.context.getD [] }
  Except.ok
    { config := cfg,
      sessionId := sessionId,
      flushTimerArmed := cfg.enabled,
      state := ⟨[], false, [], none⟩ }

/-- Entries whose keys avoid `k` do not change a spread-semantics lookup
when appended. -/
lemma lookupLast_append_of_not_mem (l1 l2 : List (String × JsonValue)) (k : String)
    (h : k ∉ l2.map Prod.fst) : lookupLast (l1 ++ l2) k = lookupLast l1 k := by
  unfold lookupLast
  rw [List.reverse_append, List.find?_append]
  have h2 : l2.reverse.find? (fun p => p.1 == k) = none := by
    rw [List.find?_eq_none]
    intro x hx hpx
    apply h
    have hk : x.1 = k := by simpa using hpx
    exact hk ▸ List.mem_map_of_mem Prod.fst (List.mem_reverse.mp hx)
  rw [h2, Option.none_or]

/-- Appended entries override earlier ones: if the appended part binds
`k`, the lookup on the whole list returns that binding. -/
lemma lookupLast_append_of_some (l1 l2 : List (String × JsonValue)) (k : String)
    (v : JsonValue) (h : lookupLast l2 k = some v) :
    lookupLast (l1 ++ l2) k = some v := by
  unfold lookupLast at h ⊢
  rw [List.reverse_append, List.find?_append]
  cases hf : l2.reverse.find? (fun p => p.1 == k) with
  | none => rw [hf] at h; simp at h
  | some x =>
      rw [hf] at h
      rw [Option.or_some]
      simpa using h

/-- Every attempt of a `sendBatch` run transmits exactly the batch it was
started with, in the original order. -/
lemma sendBatch_attempts_eq_aux (mr : Nat) (f : Nat → Bool) (b : List EventRecord) :
    ∀ (d rc : Nat), mr - rc ≤ d → ∀ a ∈ (sendBatch mr f b rc).attempts, a = b := by
  intro d
  induction d with
  | zero =>
      intro rc hle a ha
      rw [sendBatch.eq_def] at ha
      have hnlt : ¬ rc < mr := by omega
      by_cases hf : f rc = true
      · simp [hf] at ha
        exact ha
      · simp [hf, hnlt] at ha
        exact ha
  | succ d ih =>
      intro rc hle a ha
      rw [sendBatch.eq_def] at ha
      by_cases hf : f rc = true
      · simp [hf] at ha
        exact ha
      · by_cases hlt : rc < mr
        · simp [hf, hlt] at ha
          rcases ha with ha | ha
          · exact ha
          · exact ih (rc + 1) (by omega) a ha
        · simp [hf, hlt] at ha
          exact ha

/-- Wrapper of `sendBatch_attempts_eq_aux` without the bound. -/
lemma sendBatch_attempts_eq (mr : Nat) (f : Nat → Bool) (b : List EventRecord) (rc : Nat) :
    ∀ a ∈ (sendBatch mr f b rc).attempts, a = b :=
  sendBatch_attempts_eq_aux mr f b (mr - rc) rc (Nat.le_refl _)

/-- A `sendBatch` run whose fetches all fail through `retryCount = mr`
archives exactly its own batch and performs `mr + 1 - rc` attempts. -/
lemma sendBatch_all_fail_aux (mr : Nat) (f : Nat → Bool) (b : List EventRecord) :
    ∀ (d rc : Nat), mr + 1 - rc ≤ d → rc ≤ mr →
      (∀ n, rc ≤ n → n ≤ mr → f n = false) →
      (sendBatch mr f b rc).archived = some b ∧
      (sendBatch mr f b rc).attempts.length = mr + 1 - rc := by
  intro d
  induction d with
  | zero => intro rc hle hrc _; omega
  | succ d ih =>
      intro rc hle hrc hfail
      have hf : f rc = false := hfail rc (Nat.le_refl _) hrc
      rw [sendBatch.eq_def]
      by_cases hlt : rc < mr
      · have hih := ih (rc + 1) (by omega) (by omega)
          (fun n h1 h2 => hfail n (by omega) h2)
        constructor
        · simp [hf, hlt, hih.1]
        · simp only [hf, hlt, if_true, if_false, Bool.false_eq_true, ite_false, ite_true,
            List.length_cons]
          rw [hih.2]
          omega
      · constructor
        · simp [hf, hlt]
        · simp only [hf, hlt, Bool.false_eq_true, ite_false, List.length_cons,
            List.length_nil]
          omega

/-- A `sendBatch` run that succeeds at `retryCount = k` after failures at
all earlier attempts never archives and performs `k + 1 - rc` attempts. -/
lemma sendBatch_succeeds_aux (mr : Nat) (f : Nat → Bool) (b : List EventRecord) (k : Nat) :
    ∀ (d rc : Nat), k + 1 - rc ≤ d → rc ≤ k → k ≤ mr → f k = true →
      (∀ n, n < k → f n = false) →
      (sendBatch mr f b rc).archived = none ∧
      (sendBatch mr f b rc).attempts.length = k + 1 - rc := by
  intro d
  induction d with
  | zero => intro rc hle hrc _ _ _; omega
  | succ d ih =>
      intro rc hle hrc hkm hk hfail
      rw [sendBatch.eq_def]
      by_cases hrk : rc = k
      · subst hrk
        constructor
        · simp [hk]
        · simp only [hk, ite_true, List.length_cons, List.length_nil]
          omega
      · have hf : f rc = false := hfail rc (by omega)
        have hlt : rc < mr := by omega
        have hih := ih (rc + 1) (by omega) (by omega) hkm hk hfail
        constructor
        · simp [hf, hlt, hih.1]
        · simp only [hf, hlt, if_true, if_false, Bool.false_eq_true, ite_false, ite_true,
            List.length_cons]
          rw [hih.2]
          omega

/-- C1 (counterexample): with the default `maxRetries = 3`, a batch whose
delivery fails exactly 3 times (the fetches at `retryCount` 0, 1 and 2)
and then succeeds on the fourth attempt is NOT appended to the
failed-batch archive, contradicting the claim that failing exactly
`maxRetries` times puts the batch in the archive: the code archives only
after the initial attempt plus `maxRetries` retries all fail. -/
theorem c1_exactly_maxRetries_failures_not_archived :
    ((fun n => n == 3) 0 = false) ∧ ((fun n => n == 3) 1 = false) ∧
    ((fun n => n == 3) 2 = false) ∧ ((fun n => n == 3) 3 = true) ∧
    (sendBatch 3 (fun n => n == 3) [[("metricName", JsonValue.str "Click")]] 0).attempts.length
      = 4 ∧
    (sendBatch 3 (fun n => n == 3) [[("metricName", JsonValue.str "Click")]] 0).archived
      = none := by
  refine ⟨rfl, rfl, rfl, rfl, ?_, ?_⟩ <;>
    simp [sendBatch.eq_def]

/-- C1 (amended): a batch is appended to the failed-batch archive,
unmodified and in its original event order, exactly when the initial
attempt and all `maxRetries` retries fail (`maxRetries + 1` failures in
total), after which no further attempt occurs; a batch whose delivery
fails at most `maxRetries` times and then succeeds never reaches the
archive. -/
theorem c1_archive_after_exhausting_retries :
    (∀ (mr : Nat) (f : Nat → Bool) (b : List EventRecord),
        (∀ n, n ≤ mr → f n = false) →
        (sendBatch mr f b 0).archived = some b ∧
        (sendBatch mr f b 0).attempts.length = mr + 1 ∧
        ∀ a ∈ (sendBatch mr f b 0).attempts, a = b) ∧
    (∀ (mr : Nat) (f : Nat → Bool) (b : List EventRecord) (k : Nat),
        k ≤ mr → f k = true → (∀ n, n < k → f n = false) →
        (sendBatch mr f b 0).archived = none) := by
  constructor
  · intro mr f b hfail
    have h := sendBatch_all_fail_aux mr f b (mr + 1) 0 (by omega) (Nat.zero_le _)
      (fun n _ h2 => hfail n h2)
    exact ⟨h.1, h.2, sendBatch_attempts_eq mr f b 0⟩
  · intro mr f b k hk hfk hfail
    exact (sendBatch_succeeds_aux mr f b k (k + 1) 0 (by omega) (Nat.zero_le _) hk hfk
      hfail).1

/-- Witness for `c1_archive_after_exhausting_retries` at concrete inputs:
all four attempts fail under `maxRetries = 3`, so the batch is archived
verbatim after exactly 4 attempts; and a run succeeding at the fourth
attempt after three failures archives nothing. -/
theorem c1_archive_after_exhausting_retries_witness :
    ((sendBatch 3 (fun _ => false) [[("metricName", JsonValue.str "Click")]] 0).archived
        = some [[("metricName", JsonValue.str "Click")]] ∧
      (sendBatch 3 (fun _ => false) [[("metricName", JsonValue.str "Click")]] 0).attempts.length
        = 4 ∧
      ∀ a ∈ (sendBatch 3 (fun _ => false) [[("metricName", JsonValue.str "Click")]] 0).attempts,
        a = [[("metricName", JsonValue.str "Click")]]) ∧
    (sendBatch 3 (fun n => n == 3) [[("metricName", JsonValue.str "Click")]] 0).archived
      = none := by
  constructor
  · exact c1_archive_after_exhausting_retries.1 3 (fun _ => false)
      [[("metricName", JsonValue.str "Click")]] (fun n _ => rfl)
  · exact c1_archive_after_exhausting_retries.2 3 (fun n => n == 3)
      [[("metricName", JsonValue.str "Click")]] 3 (by omega) rfl
      (fun n hn => by rw [beq_eq_false_iff_ne]; omega)

/-- C4: when the attempt at `retryCount = n` fails with `n < maxRetries`,
the scheduled backoff delay is exactly `2 ^ n * 1000` milliseconds and the
re-attempt (and every attempt of the run) transmits the same batch
contents in the same order. -/
theorem c4_exponential_backoff (mr : Nat) (f : Nat → Bool) (b : List EventRecord) (n : Nat)
    (hfail : f n = false) (hlt : n < mr) :
    sendBatch mr f b n =
      { delays := 2 ^ n * 1000 :: (sendBatch mr f b (n + 1)).delays,
        attempts := b :: (sendBatch mr f b (n + 1)).attempts,
        archived := (sendBatch mr f b (n + 1)).archived } ∧
    ∀ a ∈ (sendBatch mr f b n).attempts, a = b := by
  constructor
  · rw [sendBatch.eq_def]
    simp [hfail, hlt]
  · exact sendBatch_attempts_eq mr f b n

/-- Witness for `c4_exponential_backoff`: a failing first attempt under
`maxRetries = 3` schedules a 1000 ms delay and retries the same batch. -/
theorem c4_exponential_backoff_witness :
    ((fun _ : Nat => false) 0 = false) ∧ (0 < 3) ∧
    (sendBatch 3 (fun _ => false) [[("metricName", JsonValue.str "Click")]] 0 =
      { delays := 2 ^ 0 * 1000 ::
          (sendBatch 3 (fun _ => false) [[("metricName", JsonValue.str "Click")]] 1).delays,
        attempts := [[("metricName", JsonValue.str "Click")]] ::
          (sendBatch 3 (fun _ => false) [[("metricName", JsonValue.str "Click")]] 1).attempts,
        archived :=
          (sendBatch 3 (fun _ => false) [[("metricName", JsonValue.str "Click")]] 1).archived } ∧
      ∀ a ∈ (sendBatch 3 (fun _ => false) [[("metricName", JsonValue.str "Click")]] 0).attempts,
        a = [[("metricName", JsonValue.str "Click")]]) :=
  ⟨rfl, by omega,
    c4_exponential_backoff 3 (fun _ => false) [[("metricName", JsonValue.str "Click")]] 0 rfl
      (by omega)⟩

/-- C5 (code bug): constructing an instance from a configuration object
whose `endpoint` is missing at runtime does NOT fail at construction
time — the constructor performs no validation and no throw, and returns a
fully initialized instance that silently carries the absent endpoint,
diverging from the documented intent that a missing endpoint should fail
loudly at construction time. -/
theorem c5_missing_endpoint_construction_succeeds :
    construct ⟨none, none, none, none, none, none⟩ "session-1" =
      Except.ok
        { config :=
            { endpoint := none, enabled := true, batchSize := 25,
              batchTimeout := 30000, maxRetries := 3, context := [] },
          sessionId := "session-1",
          flushTimerArmed := true,
          state := ⟨[], false, [], none⟩ } := rfl

/-- Looking up `attributes` in a `trackEvent` object literal whose spread
context does not bind that key returns the normalized attributes value. -/
lemma lookupLast_attributes (ts mn vv cid attrs eg sid ua : JsonValue)
    (ctx : List (String × JsonValue)) (hctx : "attributes" ∉ ctx.map Prod.fst) :
    lookupLast
      ([("timestamp", ts), ("metricName", mn), ("value", vv), ("contentId", cid),
        ("attributes", attrs), ("experimentGroup", eg), ("sessionId", sid),
        ("userAgent", ua)] ++ ctx) "attributes" = some attrs := by
  rw [lookupLast_append_of_not_mem _ _ _ hctx]
  rfl

/-- C7: a string `attributes` argument that fails to parse as JSON does
not make `trackEvent` raise: the attributes are normalized to
`{raw: <original string>}`, that value is the `attributes` field of the
produced event (when the configured context does not shadow the key), and
the event is still enqueued. -/
theorem c7_unparsable_attributes_wrapped (cfg : AnalyticsConfig)
    (jp : String → Option JsonValue) (now : Int) (ua : Option String) (sid : String)
    (s : AnalyticsState) (name : String) (v : Option Int) (cid : Option String)
    (eg : Option String) (str : String)
    (hen : cfg.enabled = true) (hne : str ≠ "") (hparse : jp str = none)
    (hctx : "attributes" ∉ cfg.context.map Prod.fst)
    (hroom : s.eventQueue.length + 1 < cfg.batchSize) :
    parseAttributes jp (some (Sum.inl str)) = .obj [("raw", .str str)] ∧
    getField (mkEvent cfg jp now ua sid name v cid (some (Sum.inl str)) eg) "attributes"
      = some (.obj [("raw", .str str)]) ∧
    (trackEvent cfg jp now ua sid s name v cid (some (Sum.inl str)) eg).eventQueue
      = s.eventQueue ++ [mkEvent cfg jp now ua sid name v cid (some (Sum.inl str)) eg] := by
  have hpa : parseAttributes jp (some (Sum.inl str)) = .obj [("raw", .str str)] := by
    simp [parseAttributes, hne, hparse]
  refine ⟨hpa, ?_, ?_⟩
  · unfold getField mkEvent
    rw [lookupLast_attributes _ _ _ _ _ _ _ _ _ hctx, hpa]
  · have hsz : ¬ cfg.batchSize ≤ s.eventQueue.length + 1 := by omega
    simp [trackEvent, hen, hsz]

/-- C9: because the configuration context is spread last in the
`trackEvent` object literal, a context entry whose key collides with a
reserved field name overrides that field in the produced event record. -/
theorem c9_context_overrides_reserved (cfg : AnalyticsConfig)
    (jp : String → Option JsonValue) (now : Int) (ua : Option String) (sid : String)
    (name : String) (v : Option Int) (cid : Option String) (attrs : AttrArg)
    (eg : Option String) (k : String) (val : JsonValue)
    (hres : k ∈ reservedFields)
    (hctx : lookupLast cfg.context k = some val) :
    getField (mkEvent cfg jp now ua sid name v cid attrs eg) k = some val := by
  unfold getField mkEvent
  exact lookupLast_append_of_some _ _ _ _ hctx

/-- Witness for `c9_context_overrides_reserved`: a context entry for the
reserved key `metricName` overrides the caller-supplied metric name in the
produced event. -/
theorem c9_context_overrides_reserved_witness :
    ("metricName" ∈ reservedFields) ∧
    lookupLast [("metricName", JsonValue.str "fromContext")] "metricName"
      = some (JsonValue.str "fromContext") ∧
    getField
      (mkEvent ⟨some "e", true, 25, 30000, 3, [("metricName", JsonValue.str "fromContext")]⟩
        jsonParse 0 none "s" "Click" none none none none) "metricName"
      = some (JsonValue.str "fromContext") := by
  refine ⟨by simp [reservedFields], rfl, ?_⟩
  exact c9_context_overrides_reserved _ jsonParse 0 none "s" "Click" none none none none
    "metricName" (JsonValue.str "fromContext") (by simp [reservedFields]) rfl

/-- C10: an empty-string `attributes` argument is falsy in JavaScript, so
it skips the whole parsing block exactly like an absent argument: the
normalized attributes are the empty mapping, not `{raw: ""}`, and the
produced event is identical to the one produced with no attributes. -/
theorem c10_empty_string_attributes (cfg : AnalyticsConfig) (jp : String → Option JsonValue)
    (now : Int) (ua : Option String) (sid : String) (name : String) (v : Option Int)
    (cid : Option String) (eg : Option String) :
    parseAttributes jp (some (Sum.inl "")) = .obj [] ∧
    parseAttributes jp none = .obj [] ∧
    mkEvent cfg jp now ua sid name v cid (some (Sum.inl "")) eg
      = mkEvent cfg jp now ua sid name v cid none eg :=
  ⟨rfl, rfl, rfl⟩

/-- When idle (busy flag clear) and the queue is non-empty, `flush`
atomically snapshots the whole queue as the batch, clears the queue, sets
the busy flag and starts the send. -/
lemma flush_starts (s0 : AnalyticsState) (h0 : s0.isFlushingInProgress = false)
    (hq : s0.eventQueue ≠ []) :
    flush s0 = ⟨[], true, s0.failedBatches, some ⟨s0.eventQueue, 0, SendPhase.attempting⟩⟩ := by
  have hc : ¬ (s0.eventQueue.length = 0 ∨ s0.isFlushingInProgress = true) := by
    rintro (h | h)
    · exact hq (List.length_eq_zero.mp h)
    · rw [h0] at h
      exact absurd h (by simp)
  unfold flush
  rw [if_neg hc]

/-- While the busy flag is set, `trackEvent` on an enabled instance just
appends the normalized event to the queue: the size-triggered `flush`
call inside the enqueue path, if reached, is dropped by the busy check. -/
lemma trackEvent_busy (cfg : AnalyticsConfig) (jp : String → Option JsonValue) (now : Int)
    (ua : Option String) (sid : String) (s : AnalyticsState) (name : String)
    (v : Option Int) (cid : Option String) (attrs : AttrArg) (eg : Option String)
    (hen : cfg.enabled = true) (hbusy : s.isFlushingInProgress = true) :
    trackEvent cfg jp now ua sid s name v cid attrs eg
      = { s with eventQueue
            := s.eventQueue ++ [mkEvent cfg jp now ua sid name v cid attrs eg] } := by
  by_cases hsz : cfg.batchSize ≤ s.eventQueue.length + 1
  · simp [trackEvent, hen, hsz, flush, hbusy]
  · simp [trackEvent, hen, hsz]

/-- C6: on an enabled instance with no flush in flight, the `trackEvent`
call that makes the queue length reach the configured `batchSize`
initiates the flush synchronously inside the enqueue path: in the same
atomic step the queue (old contents plus the new event) becomes the
in-flight batch and the queue is cleared, without waiting for the
periodic timer. -/
theorem c6_size_trigger_flushes (cfg : AnalyticsConfig) (jp : String → Option JsonValue)
    (now : Int) (ua : Option String) (sid : String) (s : AnalyticsState) (name : String)
    (v : Option Int) (cid : Option String) (attrs : AttrArg) (eg : Option String)
    (hen : cfg.enabled = true)
    (hbusy : s.isFlushingInProgress = false)
    (hsize : s.eventQueue.length + 1 = cfg.batchSize) :
    trackEvent cfg jp now ua sid s name v cid attrs eg =
      { eventQueue := [],
        isFlushingInProgress := true,
        failedBatches := s.failedBatches,
        inFlight := some ⟨s.eventQueue ++ [mkEvent cfg jp now ua sid name v cid attrs eg],
          0, SendPhase.attempting⟩ } := by
  have hsz : cfg.batchSize ≤ s.eventQueue.length + 1 := by omega
  have hne : ¬ (s.eventQueue.length + 1 = 0) := by omega
  simp [trackEvent, hen, hsz, flush, hbusy, hne]

/-- Witness for `c6_size_trigger_flushes`: with `batchSize = 1` and an
empty idle queue, a single `trackEvent` call immediately extracts the
one-event batch and starts the send. -/
theorem c6_size_trigger_flushes_witness :
    ((⟨some "e", true, 1, 30000, 3, []⟩ : AnalyticsConfig).enabled = true) ∧
    ((⟨[], false, [], none⟩ : AnalyticsState).isFlushingInProgress = false) ∧
    ((⟨[], false, [], none⟩ : AnalyticsState).eventQueue.length + 1
      = (⟨some "e", true, 1, 30000, 3, []⟩ : AnalyticsConfig).batchSize) ∧
    trackEvent ⟨some "e", true, 1, 30000, 3, []⟩ jsonParse 0 none "s" ⟨[], false, [], none⟩
        "Click" none none none none =
      { eventQueue := [],
        isFlushingInProgress := true,
        failedBatches := [],
        inFlight := some ⟨[] ++ [mkEvent ⟨some "e", true, 1, 30000, 3, []⟩ jsonParse 0 none
          "s" "Click" none none none none], 0, SendPhase.attempting⟩ } :=
  ⟨rfl, rfl, rfl,
    c6_size_trigger_flushes _ jsonParse 0 none "s" _ "Click" none none none none rfl rfl rfl⟩

/-- C8: `clear` empties both the pending event queue and the failed-batch
archive: after it the queue length is 0 (queued-but-unsent events are
discarded) and the archive is empty. -/
theorem c8_clear_empties_queue_and_archive (s : AnalyticsState) :
    (clear s).eventQueue.length = 0 ∧ (clear s).eventQueue = [] ∧
    (clear s).failedBatches = [] :=
  ⟨rfl, rfl, rfl⟩

/-- C3 (counterexample): a concrete reachable trace refuting the claim
that a flush request during a backoff delay with a non-empty queue
initiates a new send. A one-event batch is flushed and its fetch fails,
parking the task in the 1000 ms backoff; an event enqueued during the
backoff lands in the queue; the flush request then finds a non-empty
queue but is a no-op (state unchanged, no new send started), because the
busy flag is still set. -/
theorem c3_flush_during_backoff_dropped :
    fetchComplete ⟨some "e", true, 25, 30000, 3, []⟩
        (flush ⟨[[("metricName", JsonValue.str "A")]], false, [], none⟩) false
      = ⟨[], true, [],
          some ⟨[[("metricName", JsonValue.str "A")]], 0, SendPhase.backingOff 1000⟩⟩ ∧
    (trackEvent ⟨some "e", true, 25, 30000, 3, []⟩ jsonParse 1 none "s"
        ⟨[], true, [],
          some ⟨[[("metricName", JsonValue.str "A")]], 0, SendPhase.backingOff 1000⟩⟩
        "B" none none none none).eventQueue
      = [mkEvent ⟨some "e", true, 25, 30000, 3, []⟩ jsonParse 1 none "s" "B" none none none
          none] ∧
    flush (trackEvent ⟨some "e", true, 25, 30000, 3, []⟩ jsonParse 1 none "s"
        ⟨[], true, [],
          some ⟨[[("metricName", JsonValue.str "A")]], 0, SendPhase.backingOff 1000⟩⟩
        "B" none none none none)
      = trackEvent ⟨some "e", true, 25, 30000, 3, []⟩ jsonParse 1 none "s"
        ⟨[], true, [],
          some ⟨[[("metricName", JsonValue.str "A")]], 0, SendPhase.backingOff 1000⟩⟩
        "B" none none none none :=
  ⟨rfl, rfl, rfl⟩

/-- C3 (amended): while a failed batch is waiting out a backoff delay the
instance still accepts new enqueues — `trackEvent` appends the normalized
event and leaves the in-flight task untouched — but a flush request
arriving during the delay is dropped as a no-op, because the busy flag
set by the in-flight flush stays set across the whole retry sequence; no
independent send starts until that flush completes. -/
theorem c3_backoff_accepts_enqueues_drops_flushes (cfg : AnalyticsConfig)
    (jp : String → Option JsonValue) (now : Int) (ua : Option String) (sid : String)
    (s : AnalyticsState) (name : String) (v : Option Int) (cid : Option String)
    (attrs : AttrArg) (eg : Option String) (b : List EventRecord) (rc d : Nat)
    (hen : cfg.enabled = true)
    (hbusy : s.isFlushingInProgress = true)
    (hin : s.inFlight = some ⟨b, rc, SendPhase.backingOff d⟩) :
    flush s = s ∧
    (trackEvent cfg jp now ua sid s name v cid attrs eg).eventQueue
      = s.eventQueue ++ [mkEvent cfg jp now ua sid name v cid attrs eg] ∧
    (trackEvent cfg jp now ua sid s name v cid attrs eg).inFlight
      = some ⟨b, rc, SendPhase.backingOff d⟩ := by
  have htr := trackEvent_busy cfg jp now ua sid s name v cid attrs eg hen hbusy
  refine ⟨?_, ?_, ?_⟩
  · unfold flush
    rw [if_pos (Or.inr hbusy)]
  · rw [htr]
  · rw [htr]
    exact hin

/-- Witness for `c3_backoff_accepts_enqueues_drops_flushes` at the
concrete backoff state of `c3_flush_during_backoff_dropped`. -/
theorem c3_backoff_accepts_enqueues_drops_flushes_witness :
    ((⟨some "e", true, 25, 30000, 3, []⟩ : AnalyticsConfig).enabled = true) ∧
    ((⟨[], true, [],
        some ⟨[[("metricName", JsonValue.str "A")]], 0, SendPhase.backingOff 1000⟩⟩ :
        AnalyticsState).isFlushingInProgress = true) ∧
    ((⟨[], true, [],
        some ⟨[[("metricName", JsonValue.str "A")]], 0, SendPhase.backingOff 1000⟩⟩ :
        AnalyticsState).inFlight
      = some ⟨[[("metricName", JsonValue.str "A")]], 0, SendPhase.backingOff 1000⟩) ∧
    (flush ⟨[], true, [],
        some ⟨[[("metricName", JsonValue.str "A")]], 0, SendPhase.backingOff 1000⟩⟩
      = ⟨[], true, [],
          some ⟨[[("metricName", JsonValue.str "A")]], 0, SendPhase.backingOff 1000⟩⟩ ∧
      (trackEvent ⟨some "e", true, 25, 30000, 3, []⟩ jsonParse 1 none "s"
          ⟨[], true, [],
            some ⟨[[("metricName", JsonValue.str "A")]], 0, SendPhase.backingOff 1000⟩⟩
          "B" none none none none).eventQueue
        = [] ++ [mkEvent ⟨some "e", true, 25, 30000, 3, []⟩ jsonParse 1 none "s" "B" none
            none none none] ∧
      (trackEvent ⟨some "e", true, 25, 30000, 3, []⟩ jsonParse 1 none "s"
          ⟨[], true, [],
            some ⟨[[("metricName", JsonValue.str "A")]], 0, SendPhase.backingOff 1000⟩⟩
          "B" none none none none).inFlight
        = some ⟨[[("metricName", JsonValue.str "A")]], 0, SendPhase.backingOff 1000⟩) :=
  ⟨rfl, rfl, rfl,
    c3_backoff_accepts_enqueues_drops_flushes _ jsonParse 1 none "s" _ "B" none none none
      none _ 0 1000 rfl rfl rfl⟩

/-- C2: batch extraction is atomic and an event enqueued during an
in-flight flush is neither lost nor duplicated. (a) `flush` on an idle
instance snapshots exactly the pre-flush queue, in insertion order, as
the batch and clears the queue in the same uninterruptible step. For a
fresh event enqueued by `trackEvent` while a flush is in flight: (b) the
in-flight task is untouched, (c) the event appears in no part of the
in-flight batch, (d) it lands exactly once at the end of the queue, and
(e) whenever the in-flight send completes (success or retry exhaustion),
the next flush carries the old queue plus that event — exactly once, by
(d) and the freshness hypotheses — as its batch. -/
theorem c2_no_loss_no_duplication (cfg : AnalyticsConfig) (jp : String → Option JsonValue)
    (now : Int) (ua : Option String) (sid : String) (s : AnalyticsState)
    (b : List EventRecord) (rc : Nat) (name : String) (v : Option Int)
    (cid : Option String) (attrs : AttrArg) (eg : Option String)
    (hen : cfg.enabled = true)
    (hbusy : s.isFlushingInProgress = true)
    (hin : s.inFlight = some ⟨b, rc, SendPhase.attempting⟩)
    (hfb : mkEvent cfg jp now ua sid name v cid attrs eg ∉ b)
    (hfq : mkEvent cfg jp now ua sid name v cid attrs eg ∉ s.eventQueue) :
    (∀ s0 : AnalyticsState, s0.isFlushingInProgress = false → s0.eventQueue ≠ [] →
        flush s0
          = ⟨[], true, s0.failedBatches, some ⟨s0.eventQueue, 0, SendPhase.attempting⟩⟩) ∧
    (trackEvent cfg jp now ua sid s name v cid attrs eg).inFlight
      = some ⟨b, rc, SendPhase.attempting⟩ ∧
    (∀ t : SendTask, (trackEvent cfg jp now ua sid s name v cid attrs eg).inFlight = some t →
        mkEvent cfg jp now ua sid name v cid attrs eg ∉ t.batch) ∧
    (trackEvent cfg jp now ua sid s name v cid attrs eg).eventQueue
      = s.eventQueue ++ [mkEvent cfg jp now ua sid name v cid attrs eg] ∧
    (∃ l, (trackEvent cfg jp now ua sid s name v cid attrs eg).eventQueue
        = l ++ [mkEvent cfg jp now ua sid name v cid attrs eg] ∧
      mkEvent cfg jp now ua sid name v cid attrs eg ∉ l) ∧
    (∀ ok : Bool,
      (fetchComplete cfg (trackEvent cfg jp now ua sid s name v cid attrs eg)
          ok).isFlushingInProgress = false →
      flush (fetchComplete cfg (trackEvent cfg jp now ua sid s name v cid attrs eg) ok)
        = ⟨[], true,
            (fetchComplete cfg (trackEvent cfg jp now ua sid s name v cid attrs eg)
              ok).failedBatches,
            some ⟨s.eventQueue ++ [mkEvent cfg jp now ua sid name v cid attrs eg], 0,
              SendPhase.attempting⟩⟩) := by
  have htr := trackEvent_busy cfg jp now ua sid s name v cid attrs eg hen hbusy
  refine ⟨flush_starts, ?_, ?_, ?_, ?_, ?_⟩
  · rw [htr]
    exact hin
  · intro t ht
    rw [htr] at ht
    have hst : s.inFlight = some t := ht
    rw [hin] at hst
    injection hst with h
    rw [← h]
    exact hfb
  · rw [htr]
  · exact ⟨s.eventQueue, by rw [htr], hfq⟩
  · intro ok hflag
    rw [htr] at hflag ⊢
    cases ok with
    | true =>
        simp [fetchComplete, hin]
        exact flush_starts _ rfl (by simp)
    | false =>
        by_cases hrc : rc < cfg.maxRetries
        · simp [fetchComplete, hin, hrc, hbusy] at hflag
        · simp [fetchComplete, hin, hrc]
          exact flush_starts _ rfl (by simp)

/-- Witness for `c2_no_loss_no_duplication`: with one event in the
in-flight batch, a distinct event enqueued during the flush stays out of
that batch, lands alone in the queue, and becomes the next flush's batch
once the in-flight fetch succeeds. -/
theorem c2_no_loss_no_duplication_witness :
    mkEvent ⟨some "e", true, 25, 30000, 3, []⟩ jsonParse 0 none "s" "B" none none none none
      ∉ [mkEvent ⟨some "e", true, 25, 30000, 3, []⟩ jsonParse 0 none "s" "A" none none none
          none] ∧
    (trackEvent ⟨some "e", true, 25, 30000, 3, []⟩ jsonParse 0 none "s"
        ⟨[], true, [],
          some ⟨[mkEvent ⟨some "e", true, 25, 30000, 3, []⟩ jsonParse 0 none "s" "A" none
            none none none], 0, SendPhase.attempting⟩⟩
        "B" none none none none).eventQueue
      = [] ++ [mkEvent ⟨some "e", true, 25, 30000, 3, []⟩ jsonParse 0 none "s" "B" none none
          none none] ∧
    flush (fetchComplete ⟨some "e", true, 25, 30000, 3, []⟩
        (trackEvent ⟨some "e", true, 25, 30000, 3, []⟩ jsonParse 0 none "s"
          ⟨[], true, [],
            some ⟨[mkEvent ⟨some "e", true, 25, 30000, 3, []⟩ jsonParse 0 none "s" "A" none
              none none none], 0, SendPhase.attempting⟩⟩
          "B" none none none none) true)
      = ⟨[], true,
          (fetchComplete ⟨some "e", true, 25, 30000, 3, []⟩
            (trackEvent ⟨some "e", true, 25, 30000, 3, []⟩ jsonParse 0 none "s"
              ⟨[], true, [],
                some ⟨[mkEvent ⟨some "e", true, 25, 30000, 3, []⟩ jsonParse 0 none "s" "A"
                  none none none none], 0, SendPhase.attempting⟩⟩
              "B" none none none none) true).failedBatches,
          some ⟨[] ++ [mkEvent ⟨some "e", true, 25, 30000, 3, []⟩ jsonParse 0 none "s" "B"
            none none none none], 0, SendPhase.attempting⟩⟩ := by
  have hfb : mkEvent ⟨some "e", true, 25, 30000, 3, []⟩ jsonParse 0 none "s" "B" none none
      none none
      ∉ [mkEvent ⟨some "e", true, 25, 30000, 3, []⟩ jsonParse 0 none "s" "A" none none none
          none] := by
    simp [mkEvent, parseAttributes, List.cons.injEq, Prod.mk.injEq, JsonValue.str.injEq]
  have h := c2_no_loss_no_duplication ⟨some "e", true, 25, 30000, 3, []⟩ jsonParse 0 none "s"
    ⟨[], true, [],
      some ⟨[mkEvent ⟨some "e", true, 25, 30000, 3, []⟩ jsonParse 0 none "s" "A" none none
        none none], 0, SendPhase.attempting⟩⟩
    [mkEvent ⟨some "e", true, 25, 30000, 3, []⟩ jsonParse 0 none "s" "A" none none none none]
    0 "B" none none none none rfl rfl rfl hfb (by simp)
  exact ⟨hfb, h.2.2.2.1, h.2.2.2.2.2 true rfl⟩

/-- Witness for `c7_unparsable_attributes_wrapped` at the claim's concrete
instance: the malformed string `"\x7bbad json"` is wrapped as
`\x7braw: "\x7bbad json"\x7d` and the event is still enqueued. -/
theorem c7_unparsable_attributes_wrapped_witness :
    ("\x7bbad json" ≠ "") ∧
    jsonParse "\x7bbad json" = none ∧
    ("attributes" ∉ ([] : List (String × JsonValue)).map Prod.fst) ∧
    (((⟨[], false, [], none⟩ : AnalyticsState).eventQueue.length + 1 < 25)) ∧
    (parseAttributes jsonParse (some (Sum.inl "\x7bbad json"))
        = JsonValue.obj [("raw", JsonValue.str "\x7bbad json")] ∧
      getField
        (mkEvent ⟨some "e", true, 25, 30000, 3, []⟩ jsonParse 0 none "s" "Click" none none
          (some (Sum.inl "\x7bbad json")) none) "attributes"
        = some (JsonValue.obj [("raw", JsonValue.str "\x7bbad json")]) ∧
      (trackEvent ⟨some "e", true, 25, 30000, 3, []⟩ jsonParse 0 none "s"
          ⟨[], false, [], none⟩ "Click" none none (some (Sum.inl "\x7bbad json"))
          none).eventQueue
        = [] ++ [mkEvent ⟨some "e", true, 25, 30000, 3, []⟩ jsonParse 0 none "s" "Click"
            none none (some (Sum.inl "\x7bbad json")) none]) := by
  refine ⟨by decide, rfl, by simp, by decide, ?_⟩
  exact c7_unparsable_attributes_wrapped ⟨some "e", true, 25, 30000, 3, []⟩ jsonParse 0 none
    "s" ⟨[], false, [], none⟩ "Click" none none none "\x7bbad json" rfl (by decide) rfl
    (by simp) (by decide)

end AmzAnalytics
